import Mathlib

/-!
# Verification of the Kaizen PT backend against its specification

Shallow embedding of `backend/services.py`, `backend/utils.py`,
`backend/models.py` and `backend/main.py`.  Python strings are modelled
as `List Char`, Python dictionaries as insertion-ordered association
lists, and Python's `json.loads` as a fuel-indexed recursive-descent
parser producing the `Json` inductive below.
-/

namespace KaizenPT

/-- A parsed JSON value as produced by Python's `json.loads`:
objects are insertion-ordered key/value lists, numbers are split into
integer literals (Python `int`) and decorated decimal literals
(Python `float`, kept syntactically). -/
inductive Json where
  | null : Json
  | bool (b : Bool) : Json
  | int (n : Int) : Json
  | float (neg : Bool) (intPart fracPart : List Char) (expNeg : Bool) (expDigits : List Char) : Json
  | str (s : String) : Json
  | arr (elems : List Json) : Json
  | obj (members : List (String × Json)) : Json
deriving Repr

/-- JSON whitespace accepted by Python's scanner. -/
def isJsonWs (c : Char) : Bool :=
  c = ' ' || c = '\t' || c = '\n' || c = '\r'

/-- Decimal digit test. -/
def isDigitCh (c : Char) : Bool :=
  '0' ≤ c && c ≤ '9'

/-- Skip leading JSON whitespace. -/
def skipWs (cs : List Char) : List Char :=
  cs.dropWhile isJsonWs

/-- Numeric value of a decimal digit run. -/
def digitsToNat (ds : List Char) : Nat :=
  ds.foldl (fun a c => a * 10 + (c.toNat - 48)) 0

/-- Value of a hexadecimal digit, if any. -/
def hexVal (c : Char) : Option Nat :=
  if '0' ≤ c && c ≤ '9' then some (c.toNat - 48)
  else if 'a' ≤ c && c ≤ 'f' then some (c.toNat - 87)
  else if 'A' ≤ c && c ≤ 'F' then some (c.toNat - 55)
  else none

/-- Decode the body of a JSON string literal (the characters after the
opening quote), returning the decoded characters and the remainder after
the closing quote.  Mirrors Python's strict scanner: raw control
characters are rejected and only the standard escapes are accepted. -/
def parseStringBody : Nat → List Char → Except String (List Char × List Char)
  | 0, _ => .error "fuel exhausted"
  | _ + 1, [] => .error "Unterminated string"
  | fuel + 1, c :: rest =>
    if c = '"' then .ok ([], rest)
    else if c = '\\' then
      match rest with
      | [] => .error "Unterminated string"
      | e :: rest2 =>
        if e = '"' then (fun p => ('"' :: p.1, p.2)) <$> parseStringBody fuel rest2
        else if e = '\\' then (fun p => ('\\' :: p.1, p.2)) <$> parseStringBody fuel rest2
        else if e = '/' then (fun p => ('/' :: p.1, p.2)) <$> parseStringBody fuel rest2
        else if e = 'b' then (fun p => ('\x08' :: p.1, p.2)) <$> parseStringBody fuel rest2
        else if e = 'f' then (fun p => ('\x0c' :: p.1, p.2)) <$> parseStringBody fuel rest2
        else if e = 'n' then (fun p => ('\n' :: p.1, p.2)) <$> parseStringBody fuel rest2
        else if e = 'r' then (fun p => ('\r' :: p.1, p.2)) <$> parseStringBody fuel rest2
        else if e = 't' then (fun p => ('\t' :: p.1, p.2)) <$> parseStringBody fuel rest2
        else if e = 'u' then
          match rest2 with
          | h1 :: h2 :: h3 :: h4 :: rest3 =>
            match hexVal h1, hexVal h2, hexVal h3, hexVal h4 with
            | some a, some b, some c3, some d =>
              (fun p => (Char.ofNat (((a * 16 + b) * 16 + c3) * 16 + d) :: p.1, p.2)) <$>
                parseStringBody fuel rest3
            | _, _, _, _ => .error "Invalid \\uXXXX escape"
          | _ => .error "Invalid \\uXXXX escape"
        else .error "Invalid \\escape"
    else if c.toNat < 32 then .error "Invalid control character"
    else (fun p => (c :: p.1, p.2)) <$> parseStringBody fuel rest

/-- Parse a JSON number starting at `cs` (first char is `-` or a digit).
Integer literals become `Json.int`; literals with a fraction or exponent
become the syntactic `Json.float`. -/
def parseNumber (cs : List Char) : Except String (Json × List Char) :=
  let (neg, cs1) : Bool × List Char :=
    match cs with
    | '-' :: rest => (true, rest)
    | _ => (false, cs)
  match cs1 with
  | [] => .error "Expecting value"
  | c :: rest =>
    if c = '0' ∨ (isDigitCh c ∧ c ≠ '0') then
      let (ip, cs2) : List Char × List Char :=
        if c = '0' then ([c], rest)
        else (c :: rest.takeWhile isDigitCh, rest.dropWhile isDigitCh)
      let (fp, cs3) : List Char × List Char :=
        match cs2 with
        | '.' :: d :: ds =>
          if isDigitCh d then (d :: ds.takeWhile isDigitCh, ds.dropWhile isDigitCh)
          else ([], cs2)
        | _ => ([], cs2)
      let fracBad : Bool :=
        match cs2 with
        | '.' :: d :: _ => !isDigitCh d
        | ['.'] => true
        | _ => false
      if fracBad then
        -- floating point literal with no digits after the dot: Python's
        -- number regex stops before the dot, leaving the dot as trailing junk
        .ok (if neg then .int (-(digitsToNat ip : Int)) else .int (digitsToNat ip), cs2)
      else
        let (hasExp, expNeg, ed, cs4) : Bool × Bool × List Char × List Char :=
          match cs3 with
          | e :: t =>
            if e = 'e' ∨ e = 'E' then
              match t with
              | s :: d :: ds =>
                if (s = '+' ∨ s = '-') ∧ isDigitCh d then
                  (true, s = '-', d :: ds.takeWhile isDigitCh, ds.dropWhile isDigitCh)
                else if isDigitCh s then
                  (true, false, s :: (d :: ds).takeWhile isDigitCh, (d :: ds).dropWhile isDigitCh)
                else (false, false, [], cs3)
              | [s] =>
                if isDigitCh s then (true, false, [s], [])
                else (false, false, [], cs3)
              | [] => (false, false, [], cs3)
            else (false, false, [], cs3)
          | [] => (false, false, [], cs3)
        if fp = [] ∧ hasExp = false then
          .ok (if neg then .int (-(digitsToNat ip : Int)) else .int (digitsToNat ip), cs4)
        else
          .ok (.float neg ip fp expNeg ed, cs4)
    else .error "Expecting value"

mutual

/-- Parse one JSON value (after skipping leading whitespace), mirroring
Python's recursive-descent `json` scanner.  `fuel` bounds the recursion
depth; `loads` below supplies enough fuel for its input. -/
def parseValue : Nat → List Char → Except String (Json × List Char)
  | 0, _ => .error "fuel exhausted"
  | fuel + 1, cs =>
    match skipWs cs with
    | [] => .error "Expecting value"
    | c :: rest =>
      if c = '{' then
        match parseMembers fuel rest with
        | .ok (kvs, rest2) => .ok (.obj kvs, rest2)
        | .error e => .error e
      else if c = '[' then
        match parseElems fuel rest with
        | .ok (xs, rest2) => .ok (.arr xs, rest2)
        | .error e => .error e
      else if c = '"' then
        match parseStringBody (rest.length + 1) rest with
        | .ok (body, rest2) => .ok (.str (String.mk body), rest2)
        | .error e => .error e
      else if c = '-' ∨ isDigitCh c then parseNumber (c :: rest)
      else
        match c :: rest with
        | 't' :: 'r' :: 'u' :: 'e' :: rest2 => .ok (.bool true, rest2)
        | 'f' :: 'a' :: 'l' :: 's' :: 'e' :: rest2 => .ok (.bool false, rest2)
        | 'n' :: 'u' :: 'l' :: 'l' :: rest2 => .ok (.null, rest2)
        | _ => .error "Expecting value"

/-- Parse the members of a JSON object, starting just after the `{`. -/
def parseMembers : Nat → List Char → Except String (List (String × Json) × List Char)
  | 0, _ => .error "fuel exhausted"
  | fuel + 1, cs =>
    match skipWs cs with
    | [] => .error "Expecting property name"
    | c :: rest =>
      if c = '}' then .ok ([], rest)
      else if c = '"' then
        match parseStringBody (rest.length + 1) rest with
        | .error e => .error e
        | .ok (key, rest2) =>
          match skipWs rest2 with
          | ':' :: rest3 =>
            match parseValue fuel rest3 with
            | .error e => .error e
            | .ok (v, rest4) =>
              match skipWs rest4 with
              | ',' :: rest5 =>
                match parseMembersMore fuel rest5 with
                | .error e => .error e
                | .ok (kvs, rest6) => .ok ((String.mk key, v) :: kvs, rest6)
              | '}' :: rest5 => .ok ([(String.mk key, v)], rest5)
              | _ => .error "Expecting comma delimiter"
          | _ => .error "Expecting colon delimiter"
      else .error "Expecting property name"

/-- Parse object members after a comma (a member is now mandatory). -/
def parseMembersMore : Nat → List Char → Except String (List (String × Json) × List Char)
  | 0, _ => .error "fuel exhausted"
  | fuel + 1, cs =>
    match skipWs cs with
    | '"' :: rest =>
      match parseStringBody (rest.length + 1) rest with
      | .error e => .error e
      | .ok (key, rest2) =>
        match skipWs rest2 with
        | ':' :: rest3 =>
          match parseValue fuel rest3 with
          | .error e => .error e
          | .ok (v, rest4) =>
            match skipWs rest4 with
            | ',' :: rest5 =>
              match parseMembersMore fuel rest5 with
              | .error e => .error e
              | .ok (kvs, rest6) => .ok ((String.mk key, v) :: kvs, rest6)
            | '}' :: rest5 => .ok ([(String.mk key, v)], rest5)
            | _ => .error "Expecting comma delimiter"
        | _ => .error "Expecting colon delimiter"
    | _ => .error "Expecting property name"

/-- Parse the elements of a JSON array, starting just after the `[`. -/
def parseElems : Nat → List Char → Except String (List Json × List Char)
  | 0, _ => .error "fuel exhausted"
  | fuel + 1, cs =>
    match skipWs cs with
    | ']' :: rest => .ok ([], rest)
    | _ =>
      match parseValue fuel cs with
      | .error e => .error e
      | .ok (v, rest2) =>
        match skipWs rest2 with
        | ',' :: rest3 =>
          match parseElemsMore fuel rest3 with
          | .error e => .error e
          | .ok (xs, rest4) => .ok (v :: xs, rest4)
        | ']' :: rest3 => .ok ([v], rest3)
        | _ => .error "Expecting comma delimiter"

/-- Parse array elements after a comma (an element is now mandatory). -/
def parseElemsMore : Nat → List Char → Except String (List Json × List Char)
  | 0, _ => .error "fuel exhausted"
  | fuel + 1, cs =>
    match parseValue fuel cs with
    | .error e => .error e
    | .ok (v, rest2) =>
      match skipWs rest2 with
      | ',' :: rest3 =>
        match parseElemsMore fuel rest3 with
        | .error e => .error e
        | .ok (xs, rest4) => .ok (v :: xs, rest4)
      | ']' :: rest3 => .ok ([v], rest3)
      | _ => .error "Expecting comma delimiter"

end

/-- Model of Python's `json.loads`: parse exactly one JSON document,
allowing surrounding whitespace only. -/
def loads (cs : List Char) : Except String Json :=
  match parseValue (cs.length + 1) cs with
  | .ok (j, rest) => if skipWs rest = [] then .ok j else .error "Extra data"
  | .error e => .error e

/-! ## Response extraction (`services.py`)

Both `generate_diagnosis` and `generate_recovery_plan` post-process the
raw model reply `content` with

    json_match = re.search(r'\x7b[\s\S]*\x7d', content)

a greedy pattern whose match, when it exists, runs from the first `{`
of `content` to the last `}` that follows it. -/

/-- The prefix of `l` that ends at the last occurrence of `c`,
or `none` when `c` does not occur in `l`. -/
def takeToLast (c : Char) (l : List Char) : Option (List Char) :=
  let r := l.reverse.dropWhile (fun x => x ≠ c)
  if r = [] then none else some r.reverse

/-- Model of `re.search(r'\x7b[\s\S]*\x7d', content)`: the leftmost
match starts at the first `{` and, being greedy, extends to the last
`}` of the text; `none` when the pattern does not match. -/
def jsonMatch (cs : List Char) : Option (List Char) :=
  takeToLast '}' (cs.dropWhile (fun x => x ≠ '{'))

/-- The object returned by `generate_diagnosis` when the regex finds no
JSON span in the reply (`services.py` lines 146-151). -/
def diagnosisNoMatchFallback : Json :=
  .obj [("diagnosis", .str "Error parsing diagnosis"),
        ("reasoning", .str "Could not generate reasoning"),
        ("recommendations", .str "Consult a healthcare provider")]

/-- The object returned by `generate_diagnosis`'s exception handler
(`services.py` lines 153-159); it catches, among others, the
`json.loads` failure on an extracted span, with `e` standing for
`str(e)`. -/
def diagnosisApiError (e : String) : Json :=
  .obj [("diagnosis", .str "Error generating diagnosis"),
        ("reasoning", .str ("API Error: " ++ e)),
        ("recommendations", .str "Consult a healthcare provider")]

/-- The object returned by `generate_recovery_plan` when the regex
finds no JSON span in the reply (`services.py` lines 83-87). -/
def planNoMatchFallback : Json :=
  .obj [("error", .str "Failed to generate recovery plan"),
        ("message", .str "Could not parse the AI response")]

/-- The object returned by `generate_recovery_plan`'s exception handler
(`services.py` lines 89-94). -/
def planApiError (e : String) : Json :=
  .obj [("error", .str "Failed to generate recovery plan"),
        ("message", .str ("API Error: " ++ e))]

/-- `generate_diagnosis` (`services.py` lines 96-159), modelled from the
point where the raw model reply `content` is in hand: extract the
greedy `\x7b...\x7d` span and `json.loads` it; a missing span returns the
parsing fallback, a failing `json.loads` is caught by the surrounding
`except` and returns the API-error object. -/
def generate_diagnosis (content : List Char) : Json :=
  match jsonMatch content with
  | some m =>
    match loads m with
    | .ok j => j
    | .error e => diagnosisApiError e
  | none => diagnosisNoMatchFallback

/-- `generate_recovery_plan` (`services.py` lines 15-94), modelled from
the point where the raw model reply `content` is in hand; same
extraction logic as `generate_diagnosis` with the plan fallbacks. -/
def generate_recovery_plan (content : List Char) : Json :=
  match jsonMatch content with
  | some m =>
    match loads m with
    | .ok j => j
    | .error e => planApiError e
  | none => planNoMatchFallback

/-- The claim-level notion of a text containing a balanced `\x7b...\x7d`
span: some infix of the text starts with `{` and ends with `}`. -/
def HasBraceSpan (cs : List Char) : Prop :=
  ∃ i j : Fin cs.length, i < j ∧ cs.get i = '{' ∧ cs.get j = '}'

instance (cs : List Char) : Decidable (HasBraceSpan cs) := by
  unfold HasBraceSpan; infer_instance

/-! ## Association lists

Python dictionaries are modelled as insertion-ordered association
lists: setting an existing key replaces its value in place, setting a
fresh key appends at the end, exactly as CPython dicts behave. -/

/-- Python `d[k]` / `d.get(k)`: first binding of `k`. -/
def assocGet (k : String) : List (String × β) → Option β
  | [] => none
  | (k', v) :: rest => if k' = k then some v else assocGet k rest

/-- Python `d[k] = v`: replace in place, or append when absent. -/
def assocSet (k : String) (v : β) : List (String × β) → List (String × β)
  | [] => [(k, v)]
  | (k', v') :: rest => if k' = k then (k, v) :: rest else (k', v') :: assocSet k v rest

/-- Python `del d[k]`: drop the binding of `k`. -/
def assocDel (k : String) : List (String × β) → List (String × β)
  | [] => []
  | (k', v') :: rest => if k' = k then rest else (k', v') :: assocDel k rest

/-- Python `d.update(kvs)`: fold the updates left to right. -/
def dictUpdate (d : List (String × β)) (kvs : List (String × β)) : List (String × β) :=
  kvs.foldl (fun a kv => assocSet kv.1 kv.2 a) d

/-- The members of a JSON object (`[]` on the unreachable non-object
case: both extraction functions only ever produce objects, because a
successful `json.loads` of a match that starts with `\x7b` yields a dict
and every fallback is a dict). -/
def objMembers : Json → List (String × Json)
  | .obj kvs => kvs
  | _ => []

/-! ## Data model (`models.py`, `utils.py`) -/

/-- `PatientCreate` (`models.py`). -/
structure PatientCreate where
  name : String
  age : Int
  injury_location : Option String := none
  pain_level : Option Int := none
  mobility_status : Option String := none
  medical_history : Option String := none
  activity_level : Option String := none
  goals : Option String := none
deriving Repr

/-- Optional string field rendered into a patient dict (`None` → JSON null). -/
def optStr : Option String → Json
  | some s => .str s
  | none => .null

/-- Optional integer field rendered into a patient dict. -/
def optInt : Option Int → Json
  | some n => .int n
  | none => .null

/-- `patient.dict()` for `PatientCreate`: every declared field, unset
optionals as `None`. -/
def PatientCreate.toDict (p : PatientCreate) : List (String × Json) :=
  [("name", .str p.name), ("age", .int p.age),
   ("injury_location", optStr p.injury_location),
   ("pain_level", optInt p.pain_level),
   ("mobility_status", optStr p.mobility_status),
   ("medical_history", optStr p.medical_history),
   ("activity_level", optStr p.activity_level),
   ("goals", optStr p.goals)]

/-- `PatientUpdate` (`models.py`): all fields optional, `none` standing
for a field the caller did not set. -/
structure PatientUpdate where
  age : Option Int := none
  injury_location : Option String := none
  pain_level : Option Int := none
  mobility_status : Option String := none
  medical_history : Option String := none
  activity_level : Option String := none
  goals : Option String := none
deriving Repr

/-- `patient_update.dict(exclude_unset=True)`: only the provided fields. -/
def PatientUpdate.toDict (p : PatientUpdate) : List (String × Json) :=
  (match p.age with | some n => [("age", Json.int n)] | none => []) ++
  (match p.injury_location with | some s => [("injury_location", Json.str s)] | none => []) ++
  (match p.pain_level with | some n => [("pain_level", Json.int n)] | none => []) ++
  (match p.mobility_status with | some s => [("mobility_status", Json.str s)] | none => []) ++
  (match p.medical_history with | some s => [("medical_history", Json.str s)] | none => []) ++
  (match p.activity_level with | some s => [("activity_level", Json.str s)] | none => []) ++
  (match p.goals with | some s => [("goals", Json.str s)] | none => [])

/-- `InjuryQuestionnaire` (`models.py`). -/
structure InjuryQuestionnaire where
  body_part : String
  hurting_description : String
  date_of_onset : Option String := none
  aggravating_factors : Option String := none
  easing_factors : Option String := none
  mechanism_of_injury : Option String := none
  severity_best : Option Int := none
  severity_worst : Option Int := none
  severity_daily_avg : Option Int := none
  irritability_factors : Option String := none
  nature_of_pain : Option String := none
  stage : Option String := none
  stability : Option String := none
  specialized_data : List (String × Json) := []
deriving Repr

/-- `questionnaire.dict()`. -/
def InjuryQuestionnaire.toDict (q : InjuryQuestionnaire) : List (String × Json) :=
  [("body_part", .str q.body_part),
   ("hurting_description", .str q.hurting_description),
   ("date_of_onset", optStr q.date_of_onset),
   ("aggravating_factors", optStr q.aggravating_factors),
   ("easing_factors", optStr q.easing_factors),
   ("mechanism_of_injury", optStr q.mechanism_of_injury),
   ("severity_best", optInt q.severity_best),
   ("severity_worst", optInt q.severity_worst),
   ("severity_daily_avg", optInt q.severity_daily_avg),
   ("irritability_factors", optStr q.irritability_factors),
   ("nature_of_pain", optStr q.nature_of_pain),
   ("stage", optStr q.stage),
   ("stability", optStr q.stability),
   ("specialized_data", .obj q.specialized_data)]

/-- The seven weekday names of `utils.create_weekly_schedule`. -/
def weekDays : List String :=
  ["Monday", "Tuesday", "Wednesday", "Thursday", "Friday", "Saturday", "Sunday"]

/-- `utils.create_weekly_schedule`: each weekday mapped to an empty list. -/
def create_weekly_schedule : List (String × Json) :=
  weekDays.map (fun d => (d, Json.arr []))

/-- One entry of `patients_db`.  CPython keeps a patient as a single
dict; the three parts a request handler distinguishes are split out
(`update_patient` can only write the seven `PatientUpdate` profile
fields, so the split is faithful). -/
structure Patient where
  profile : List (String × Json)
  injuries : List Json
  weekly_schedule : List (String × Json)
deriving Repr

/-- The in-memory store `patients_db`, insertion-ordered. -/
abbrev Db := List (String × Patient)

/-- A FastAPI `HTTPException`. -/
structure HttpError where
  status : Nat
  detail : String
deriving Repr, DecidableEq

/-! ## Request handlers (`main.py`)

Each handler is a pure function from the current `patients_db` (plus
the request data, and — for the two AI-backed handlers — the raw text
reply `content` of the model provider) to the next store and an HTTP
outcome.  Handlers that take the identity from the bearer token receive
the verified e-mail as `email`; the vestigial path parameter is not
consulted by the source there. -/

/-- `POST /patients/` (`main.py` `create_patient`). -/
def create_patient (patient : PatientCreate) (db : Db) : Db × Except HttpError Json :=
  match assocGet patient.name db with
  | some _ => (db, .error ⟨400, "Patient already exists"⟩)
  | none =>
    (assocSet patient.name
      { profile := patient.toDict, injuries := [], weekly_schedule := create_weekly_schedule } db,
     .ok (.obj [("message", .str ("Patient " ++ patient.name ++ " created successfully"))]))

/-- `PUT /patients/{patient_name}` (`main.py` `update_patient`): merge
only the provided fields into the record. -/
def update_patient (patient_name : String) (patient_update : PatientUpdate) (db : Db) :
    Db × Except HttpError Json :=
  match assocGet patient_name db with
  | none => (db, .error ⟨404, "Patient not found"⟩)
  | some p =>
    (assocSet patient_name { p with profile := dictUpdate p.profile patient_update.toDict } db,
     .ok (.obj [("message", .str ("Patient " ++ patient_name ++ " updated successfully"))]))

/-- `DELETE /patients/{patient_name}` (`main.py` `delete_patient`). -/
def delete_patient (patient_name : String) (db : Db) : Db × Except HttpError Json :=
  match assocGet patient_name db with
  | none => (db, .error ⟨404, "Patient not found"⟩)
  | some _ =>
    (assocDel patient_name db,
     .ok (.obj [("message", .str ("Patient '" ++ patient_name ++ "' has been deleted."))]))

/-- `GET /weekly_schedule/{patient_name}` (`main.py`
`get_weekly_schedule`): a read-only handler keyed by the path
parameter; 404 when the patient is absent. -/
def get_weekly_schedule (patient_name : String) (db : Db) :
    Except HttpError (List (String × Json)) :=
  match assocGet patient_name db with
  | none => .error ⟨404, "Patient not found"⟩
  | some p => .ok p.weekly_schedule

/-- `POST /weekly_schedule/{patient_name}/{day}` (`main.py`
`add_exercise_to_day`): 400 unless `day` is a key of the patient's
current schedule; appending onto a non-list value would raise
`AttributeError` in CPython (surfaced as a 500). -/
def add_exercise_to_day (patient_name day : String) (exercise : Json) (db : Db) :
    Db × Except HttpError Json :=
  match assocGet patient_name db with
  | none => (db, .error ⟨404, "Patient not found"⟩)
  | some p =>
    match assocGet day p.weekly_schedule with
    | none => (db, .error ⟨400, "Invalid day provided"⟩)
    | some (.arr xs) =>
      (assocSet patient_name
        { p with weekly_schedule := assocSet day (.arr (xs ++ [exercise])) p.weekly_schedule } db,
       .ok (.obj [("message", .str ("Exercise added to " ++ day ++ " for " ++ patient_name))]))
    | some _ =>
      (db, .error ⟨500, "AttributeError: object has no attribute append"⟩)

/-- `POST /patients/{patient_name}/generate_recovery_plan` (`main.py`
`create_recovery_plan`): identity from the verified e-mail; 404 when
absent, 400 when the patient has no injuries, otherwise the weekly
schedule is overwritten with the extracted plan object and the plan is
returned. -/
def create_recovery_plan (email : String) (content : List Char) (db : Db) :
    Db × Except HttpError Json :=
  match assocGet email db with
  | none => (db, .error ⟨404, "Patient not found"⟩)
  | some p =>
    match p.injuries with
    | [] => (db, .error ⟨400,
        "No injuries found for this patient. Please add injury information first."⟩)
    | _ :: _ =>
      let recovery_plan := generate_recovery_plan content
      (assocSet email { p with weekly_schedule := objMembers recovery_plan } db,
       .ok recovery_plan)

/-- `POST /patients/{patient_name}/injury_questionnaire` (`main.py`
`add_injury_questionnaire`): auto-creates the record for a never-seen
e-mail, merges the diagnosis into the questionnaire dict, appends it to
the injury list and returns the diagnosis. -/
def add_injury_questionnaire (email : String) (questionnaire : InjuryQuestionnaire)
    (content : List Char) (db : Db) : Db × Except HttpError Json :=
  let db1 : Db :=
    match assocGet email db with
    | some _ => db
    | none =>
      assocSet email
        { profile := [("name", .str email)], injuries := [],
          weekly_schedule := create_weekly_schedule } db
  match assocGet email db1 with
  | none => (db1, .error ⟨500, "unreachable"⟩)
  | some p =>
    let diagnosis_result := generate_diagnosis content
    let injury_data := dictUpdate questionnaire.toDict (objMembers diagnosis_result)
    (assocSet email { p with injuries := p.injuries ++ [.obj injury_data] } db1,
     .ok diagnosis_result)

/-! ## Cross-patient aggregation (`utils.generate_pt_weekly_schedule`)

The source does `pt_schedule[day].append(f"{patient_name}:
{exercise.get('name', exercise)}")` inside `for exercise in exercises`.
CPython first evaluates `pt_schedule[day]` (a `KeyError` when `day` is
not a template key), then the f-string argument (an `AttributeError`
when `exercise` has no `.get`), and only iterates at all when
`exercises` is a non-empty iterable. -/

/-- A CPython runtime error escaping `generate_pt_weekly_schedule`. -/
inductive PyErr where
  | keyError (k : String)
  | attributeError (msg : String)
  | typeError (msg : String)
deriving Repr, DecidableEq

/-- `for x in v` over a JSON-decoded value: lists yield their elements,
strings their characters, dicts their keys; `None`, booleans and
numbers are not iterable. -/
def iterElems : Json → Except PyErr (List Json)
  | .arr xs => .ok xs
  | .str s => .ok (s.data.map (fun c => .str (String.mk [c])))
  | .obj kvs => .ok (kvs.map (fun kv => .str kv.1))
  | _ => .error (.typeError "object is not iterable")

mutual

/-- Python `repr` of a JSON-decoded value (`str` falls back to this for
every non-string; the float rendering reprints the literal, a harmless
approximation of CPython float formatting). -/
def pyRepr : Json → String
  | .null => "None"
  | .bool true => "True"
  | .bool false => "False"
  | .int n => toString n
  | .float neg ip fp en ed =>
    (if neg then "-" else "") ++ String.mk ip ++
      (if fp = [] then "" else "." ++ String.mk fp) ++
      (if ed = [] then "" else "e" ++ (if en then "-" else "") ++ String.mk ed)
  | .str s => "'" ++ s ++ "'"
  | .arr xs => "[" ++ String.intercalate ", " (pyReprList xs) ++ "]"
  | .obj kvs => "\x7b" ++ String.intercalate ", " (pyReprMembers kvs) ++ "\x7d"

/-- `repr` of the elements of a list. -/
def pyReprList : List Json → List String
  | [] => []
  | x :: xs => pyRepr x :: pyReprList xs

/-- `repr` of the members of a dict. -/
def pyReprMembers : List (String × Json) → List String
  | [] => []
  | (k, v) :: kvs => ("'" ++ k ++ "': " ++ pyRepr v) :: pyReprMembers kvs

end

/-- Python `str()` as applied by an f-string. -/
def pyStr : Json → String
  | .str s => s
  | j => pyRepr j

/-- The f-string argument `f"{patient_name}: {exercise.get('name',
exercise)}"`: only dicts have `.get`. -/
def fmtExercise (patient_name : String) (exercise : Json) : Except PyErr String :=
  match exercise with
  | .obj kvs => .ok (patient_name ++ ": " ++ pyStr ((assocGet "name" kvs).getD (.obj kvs)))
  | _ => .error (.attributeError "object has no attribute get")

/-- The inner `for exercise in exercises` loop of
`generate_pt_weekly_schedule`:
`pt_schedule[day].append(f"{patient_name}: {exercise.get('name', exercise)}")`
prefixed by CPython's evaluation order (subscript first, then the
f-string argument). -/
def ptAddExercises (patient_name day : String) :
    List Json → List (String × List String) → Except PyErr (List (String × List String))
  | [], acc => .ok acc
  | exercise :: more, acc => do
    let cur ← match assocGet day acc with
      | some l => Except.ok l
      | none => Except.error (.keyError day)
    let line ← fmtExercise patient_name exercise
    ptAddExercises patient_name day more (assocSet day (cur ++ [line]) acc)

/-- The `for day, exercises in data["weekly_schedule"].items()` loop. -/
def ptAddDays (patient_name : String) :
    List (String × Json) → List (String × List String) → Except PyErr (List (String × List String))
  | [], acc => .ok acc
  | (day, exercises) :: more, acc => do
    let elems ← iterElems exercises
    let acc2 ← ptAddExercises patient_name day elems acc
    ptAddDays patient_name more acc2

/-- The `for patient_name, data in patients_db.items()` loop. -/
def ptAddPatients :
    Db → List (String × List String) → Except PyErr (List (String × List String))
  | [], acc => .ok acc
  | (patient_name, data) :: more, acc => do
    let acc2 ← ptAddDays patient_name data.weekly_schedule acc
    ptAddPatients more acc2

/-- `utils.generate_pt_weekly_schedule`: start from the weekday
template and append one formatted line per exercise per patient per
day, propagating the first CPython error. -/
def generate_pt_weekly_schedule (patients_db : Db) :
    Except PyErr (List (String × List String)) :=
  ptAddPatients patients_db (weekDays.map (fun d => (d, ([] : List String))))

/-- `GET /pt_schedule` (`main.py` `get_overall_pt_schedule`). -/
def get_overall_pt_schedule (db : Db) : Except PyErr (List (String × List String)) :=
  generate_pt_weekly_schedule db

/-- Modelled from the spec: the repository's `src/` has no
injury-removal endpoint (spec §6 lists `DELETE
/patients/{id}/injuries/{index}`); modelled from spec §4.4
`removeInjuryAt` and §8: bounds-checked positional removal that returns
the removed entry, and a NotFound error for any index outside
`[0, length)`, never a silent no-op. -/
def removeInjuryAt (injuries : List Json) (i : Int) :
    Except HttpError (Json × List Json) :=
  if h : 0 ≤ i ∧ i < injuries.length then
    .ok (injuries.get ⟨i.toNat, by omega⟩, injuries.eraseIdx i.toNat)
  else .error ⟨404, "Injury not found"⟩

/-- A decidable scan for the claim-level brace-span property: some
`\x7b` occurs with a `\x7d` somewhere after it. -/
def hasBraceSpanB : List Char → Bool
  | [] => false
  | c :: rest => if c = '{' then rest.contains '}' else hasBraceSpanB rest

/-- Every patient record in the store keys its weekly schedule by
exactly the seven weekday names, in template order. -/
def WeeklyKeysInv (db : Db) : Prop :=
  ∀ pr ∈ db, (pr : String × Patient).2.weekly_schedule.map Prod.fst = weekDays

/-- The questionnaire used by the reachable counterexample states. -/
def exQuestionnaire : InjuryQuestionnaire :=
  { body_part := "Knee", hurting_description := "aches when climbing stairs" }

/-- Reachable store: one questionnaire submitted for a never-seen
e-mail, with an AI reply containing no JSON (fallback diagnosis). -/
def exDb1 : Db :=
  (add_injury_questionnaire "a@x.com" exQuestionnaire ("not json".toList) []).1

/-- Reachable store: recovery-plan generation on `exDb1` whose AI reply
contains no JSON, so the `\x7berror, message\x7d` fallback becomes the
stored weekly schedule. -/
def exDb2 : Db :=
  (create_recovery_plan "a@x.com" ("still no braces".toList) exDb1).1

/-- The store after `create_patient` for "alice" (age 30). -/
def exDbAlice : Db := (create_patient { name := "alice", age := 30 } []).1

/-- The record `create_patient` stores for "alice". -/
def exAlice : Patient :=
  { profile := ({ name := "alice", age := 30 } : PatientCreate).toDict,
    injuries := [], weekly_schedule := create_weekly_schedule }

end KaizenPT

namespace KaizenPT

/-! ## Association-list lemmas -/

theorem assocGet_assocSet_self {β} (k : String) (v : β) : ∀ (l : List (String × β)),
    assocGet k (assocSet k v l) = some v
  | [] => by simp [assocGet, assocSet]
  | (a1, a2) :: rest => by
    by_cases ha : a1 = k
    · simp [assocSet, assocGet, ha]
    · simp only [assocSet, assocGet, ha, if_false]
      exact assocGet_assocSet_self k v rest

theorem assocGet_assocSet_ne {β} {k k' : String} (v : β) (h : k' ≠ k) :
    ∀ (l : List (String × β)), assocGet k' (assocSet k v l) = assocGet k' l
  | [] => by simp [assocGet, assocSet, Ne.symm h]
  | (a1, a2) :: rest => by
    by_cases ha : a1 = k
    · have ha' : a1 ≠ k' := ha ▸ Ne.symm h
      simp [assocSet, assocGet, ha, ha', Ne.symm h]
    · simp only [assocSet, assocGet, ha, if_false]
      by_cases ha' : a1 = k'
      · simp [ha']
      · simp [ha', assocGet_assocSet_ne v h rest]

theorem mem_assocSet {β} {k : String} {v : β} {x : String × β} :
    ∀ {l : List (String × β)}, x ∈ assocSet k v l → x = (k, v) ∨ x ∈ l
  | [] => by intro hx; simp [assocSet] at hx; exact Or.inl hx
  | (a1, a2) :: rest => by
    intro hx
    by_cases ha : a1 = k
    · simp only [assocSet, ha, if_true] at hx
      rcases List.mem_cons.mp hx with h1 | h1
      · exact Or.inl h1
      · exact Or.inr (List.mem_cons_of_mem _ h1)
    · simp only [assocSet, ha, if_false] at hx
      rcases List.mem_cons.mp hx with h1 | h1
      · exact Or.inr (h1 ▸ List.mem_cons_self _ _)
      · rcases mem_assocSet h1 with h2 | h2
        · exact Or.inl h2
        · exact Or.inr (List.mem_cons_of_mem _ h2)

theorem assocGet_mem {β} {k : String} {v : β} : ∀ {l : List (String × β)},
    assocGet k l = some v → (k, v) ∈ l
  | [] => by intro h; simp [assocGet] at h
  | (a1, a2) :: rest => by
    intro h
    by_cases ha : a1 = k
    · subst ha
      simp [assocGet] at h
      subst h
      exact List.mem_cons_self _ _
    · simp only [assocGet, ha, if_false] at h
      exact List.mem_cons_of_mem _ (assocGet_mem h)

theorem mem_assocDel {β} {k : String} {x : String × β} :
    ∀ {l : List (String × β)}, x ∈ assocDel k l → x ∈ l
  | [] => by intro hx; simp [assocDel] at hx
  | (a1, a2) :: rest => by
    intro hx
    by_cases ha : a1 = k
    · simp only [assocDel, ha, if_true] at hx
      exact List.mem_cons_of_mem _ hx
    · simp only [assocDel, ha, if_false] at hx
      rcases List.mem_cons.mp hx with h1 | h1
      · exact h1 ▸ List.mem_cons_self _ _
      · exact List.mem_cons_of_mem _ (mem_assocDel h1)

theorem assocSet_map_fst_of_get {β} {k : String} {v w : β} : ∀ {l : List (String × β)},
    assocGet k l = some v → (assocSet k w l).map Prod.fst = l.map Prod.fst
  | [] => by intro h; simp [assocGet] at h
  | (a1, a2) :: rest => by
    intro h
    by_cases ha : a1 = k
    · simp [assocSet, ha]
    · simp only [assocGet, ha, if_false] at h
      simp [assocSet, ha, assocSet_map_fst_of_get h]

/-! ## Structure of the greedy regex match -/

theorem dropWhileLbrace_append : ∀ (p rest : List Char), '{' ∉ p →
    (p ++ '{' :: rest).dropWhile (fun x => x ≠ '{') = '{' :: rest
  | [], rest, _ => by simp [List.dropWhile_cons]
  | a :: as, rest, hp => by
    have ha : ¬(a = '{') := fun hEq => hp (by simp [hEq])
    have has : '{' ∉ as := fun hIn => hp (List.mem_cons_of_mem _ hIn)
    rw [List.cons_append,
      List.dropWhile_cons_of_pos (p := fun x => x ≠ '{') (decide_eq_true ha)]
    exact dropWhileLbrace_append as rest has

theorem dropWhileRbrace_append : ∀ (q rest : List Char), '}' ∉ q →
    (q ++ '}' :: rest).dropWhile (fun x => x ≠ '}') = '}' :: rest
  | [], rest, _ => by simp [List.dropWhile_cons]
  | a :: as, rest, hq => by
    have ha : ¬(a = '}') := fun hEq => hq (by simp [hEq])
    have has : '}' ∉ as := fun hIn => hq (List.mem_cons_of_mem _ hIn)
    rw [List.cons_append,
      List.dropWhile_cons_of_pos (p := fun x => x ≠ '}') (decide_eq_true ha)]
    exact dropWhileRbrace_append as rest has

/-- Where the greedy `\x7b[\s\S]*\x7d` match lands on a clean embedding
`p ++ "\x7b" ++ v ++ "\x7d" ++ q` (no `\x7b` in the prefix, no `\x7d` in the
suffix): exactly the embedded span. -/
theorem jsonMatch_embed (p v q : List Char) (hp : '{' ∉ p) (hq : '}' ∉ q) :
    jsonMatch (p ++ ('{' :: (v ++ ['}'])) ++ q) = some ('{' :: (v ++ ['}'])) := by
  unfold jsonMatch takeToLast
  have h1 : (p ++ ('{' :: (v ++ ['}'])) ++ q).dropWhile (fun x => x ≠ '{') =
      '{' :: ((v ++ ['}']) ++ q) := by
    rw [List.append_assoc]
    rw [show ('{' :: (v ++ ['}'])) ++ q = '{' :: ((v ++ ['}']) ++ q) from rfl]
    exact dropWhileLbrace_append p _ hp
  rw [h1]
  have h2 : ('{' :: ((v ++ ['}']) ++ q)).reverse =
      q.reverse ++ '}' :: (v.reverse ++ ['{']) := by
    simp
  rw [h2, dropWhileRbrace_append q.reverse _ (fun hIn => hq (List.mem_reverse.mp hIn))]
  simp

theorem hasBraceSpanB_of_jsonMatch : ∀ {cs m : List Char},
    jsonMatch cs = some m → hasBraceSpanB cs = true := by
  intro cs
  induction cs with
  | nil => intro m h; simp [jsonMatch, takeToLast] at h
  | cons c rest ih =>
    intro m h
    by_cases hc : c = '{'
    · simp only [hasBraceSpanB, hc, if_true]
      by_contra hmem
      have hnot : '}' ∉ rest := by
        intro hin
        exact hmem (by simpa [List.contains] using List.elem_iff.mpr hin)
      have hnil : ((c :: rest).reverse).dropWhile (fun x => x ≠ '}') = [] := by
        rw [List.dropWhile_eq_nil_iff]
        intro x hx
        rcases (by simpa using hx : x ∈ rest ∨ x = c) with h1 | h1
        · simp only [ne_eq, decide_eq_true_eq]
          exact fun hEq => hnot (hEq ▸ h1)
        · simp [h1, hc]
      have hdw : (c :: rest).dropWhile (fun x => x ≠ '{') = c :: rest := by
        rw [List.dropWhile_cons]
        simp [hc]
      unfold jsonMatch at h
      rw [hdw] at h
      unfold takeToLast at h
      rw [hnil] at h
      simp at h
    · have hstep : jsonMatch (c :: rest) = jsonMatch rest := by
        unfold jsonMatch
        rw [List.dropWhile_cons]
        simp [hc]
      rw [hstep] at h
      simpa [hasBraceSpanB, hc] using ih h

theorem hasBraceSpan_of_hasBraceSpanB : ∀ {cs : List Char},
    hasBraceSpanB cs = true → HasBraceSpan cs := by
  intro cs
  induction cs with
  | nil => intro h; simp [hasBraceSpanB] at h
  | cons c rest ih =>
    intro h
    by_cases hc : c = '{'
    · simp only [hasBraceSpanB, hc, if_true] at h
      have hin : '}' ∈ rest := by simpa using h
      obtain ⟨k, hk⟩ := List.mem_iff_get.mp hin
      refine ⟨⟨0, by simp⟩, ⟨k.val + 1, by simp [Nat.succ_lt_succ k.isLt]⟩, ?_, ?_, ?_⟩
      · exact Nat.succ_pos k.val
      · simpa using hc
      · simpa using hk
    · simp only [hasBraceSpanB, hc, if_false] at h
      obtain ⟨i, j, hij, hi, hj⟩ := ih h
      refine ⟨⟨i.val + 1, by simp [Nat.succ_lt_succ i.isLt]⟩,
              ⟨j.val + 1, by simp [Nat.succ_lt_succ j.isLt]⟩, ?_, ?_, ?_⟩
      · exact Nat.succ_lt_succ hij
      · simpa using hi
      · simpa using hj

/-- Contrapositive bridge: a text with no brace span yields no regex
match at all. -/
theorem jsonMatch_eq_none_of_no_span {cs : List Char} (h : ¬ HasBraceSpan cs) :
    jsonMatch cs = none := by
  cases hm : jsonMatch cs with
  | none => rfl
  | some m =>
    exact absurd (hasBraceSpan_of_hasBraceSpanB (hasBraceSpanB_of_jsonMatch hm)) h

end KaizenPT

namespace KaizenPT

/-! ## Claim C1 — extraction round-trip -/

/-- C1, counterexample.  The claim quantifies over every text of the
form `prefix + "\x7b" + validJSON + "\x7d" + suffix`; with the empty prefix,
the valid object `\x7b"a":1\x7d` and the suffix `\x7d`, the greedy match spans
`\x7b"a":1\x7d\x7d`, `json.loads` fails on it, and the extraction used by
`generate_diagnosis` returns the exception-handler object instead of
the parsed object `\x7b"a": 1\x7d`. -/
theorem c1_greedy_match_counterexample :
    generate_diagnosis ("\x7b\"a\":1\x7d\x7d".toList) = diagnosisApiError "Extra data" ∧
    generate_diagnosis ("\x7b\"a\":1\x7d\x7d".toList) ≠ Json.obj [("a", Json.int 1)] := by
  constructor
  · rfl
  · rw [show generate_diagnosis ("\x7b\"a\":1\x7d\x7d".toList) = diagnosisApiError "Extra data"
      from rfl]
    simp [diagnosisApiError]

/-- C1, amended.  The extraction used by both `generate_diagnosis` and
`generate_recovery_plan` returns exactly the parsed object whenever the
prefix contains no `\x7b` and the suffix contains no `\x7d` (so that the
greedy `\x7b[\s\S]*\x7d` match is exactly the embedded span); and on any
text with no balanced `\x7b...\x7d` span each call site returns its
designated fallback object. -/
theorem c1_extraction_roundtrip_amended :
    (∀ (p v q : List Char) (j : Json), '{' ∉ p → '}' ∉ q →
      loads ('{' :: (v ++ ['}'])) = .ok j →
      generate_diagnosis (p ++ ('{' :: (v ++ ['}'])) ++ q) = j ∧
      generate_recovery_plan (p ++ ('{' :: (v ++ ['}'])) ++ q) = j) ∧
    (∀ cs : List Char, ¬ HasBraceSpan cs →
      generate_diagnosis cs = diagnosisNoMatchFallback ∧
      generate_recovery_plan cs = planNoMatchFallback) := by
  constructor
  · intro p v q j hp hq hparse
    constructor
    · simp only [generate_diagnosis, jsonMatch_embed p v q hp hq, hparse]
    · simp only [generate_recovery_plan, jsonMatch_embed p v q hp hq, hparse]
  · intro cs hspan
    constructor
    · simp only [generate_diagnosis, jsonMatch_eq_none_of_no_span hspan]
    · simp only [generate_recovery_plan, jsonMatch_eq_none_of_no_span hspan]

/-- C1, witness: the amended theorem applied at a concrete clean
embedding and at a concrete span-free text. -/
theorem c1_extraction_roundtrip_amended_witness :
    generate_diagnosis ("The result: ".toList ++ ('{' :: ("\"a\":1".toList ++ ['}'])) ++
      " end".toList) = Json.obj [("a", Json.int 1)] ∧
    generate_recovery_plan ("no json here".toList) = planNoMatchFallback := by
  constructor
  · exact (c1_extraction_roundtrip_amended.1 "The result: ".toList "\"a\":1".toList
      " end".toList (Json.obj [("a", Json.int 1)]) (by decide) (by decide) rfl).1
  · exact (c1_extraction_roundtrip_amended.2 "no json here".toList (by decide)).2

/-! ## Claim C3 — diagnosis extraction never raises; fallback identity -/

/-- C3, counterexample.  On the reply `\x7b]\x7d` a candidate span is found
(`\x7b]\x7d`) and parsing it fails, but the result is the exception-handler
object (`diagnosis: "Error generating diagnosis"`), not the
`"Error parsing diagnosis"` object the claim names. -/
theorem c3_parse_failure_object_counterexample :
    jsonMatch ("\x7b]\x7d".toList) = some ("\x7b]\x7d".toList) ∧
    loads ("\x7b]\x7d".toList) = .error "Expecting property name" ∧
    generate_diagnosis ("\x7b]\x7d".toList) ≠ diagnosisNoMatchFallback := by
  refine ⟨rfl, rfl, ?_⟩
  rw [show generate_diagnosis ("\x7b]\x7d".toList) =
    diagnosisApiError "Expecting property name" from rfl]
  simp [diagnosisApiError, diagnosisNoMatchFallback]

/-- C3, amended.  The diagnosis extraction is a total function (never a
propagated failure); when no `\x7b...\x7d` span exists it returns the
`"Error parsing diagnosis"` object; when a span is found but parsing
fails it returns the exception-handler object
`\x7bdiagnosis: "Error generating diagnosis", reasoning: "API Error: " + e,
recommendations: "Consult a healthcare provider"\x7d`; when parsing
succeeds it returns the parsed object. -/
theorem c3_diagnosis_extraction_cases (cs : List Char) :
    (¬ HasBraceSpan cs → generate_diagnosis cs = diagnosisNoMatchFallback) ∧
    (∀ m e, jsonMatch cs = some m → loads m = .error e →
      generate_diagnosis cs = diagnosisApiError e) ∧
    (∀ m j, jsonMatch cs = some m → loads m = .ok j →
      generate_diagnosis cs = j) := by
  refine ⟨?_, ?_, ?_⟩
  · intro hspan
    simp only [generate_diagnosis, jsonMatch_eq_none_of_no_span hspan]
  · intro m e hm he
    simp only [generate_diagnosis, hm, he]
  · intro m j hm hj
    simp only [generate_diagnosis, hm, hj]

/-- C3, witness: the three cases of the amended theorem discharged at
concrete replies. -/
theorem c3_diagnosis_extraction_cases_witness :
    generate_diagnosis ("plain text".toList) = diagnosisNoMatchFallback ∧
    generate_diagnosis ("\x7b]\x7d".toList) = diagnosisApiError "Expecting property name" ∧
    generate_diagnosis ("ok \x7b\"diagnosis\":\"strain\"\x7d".toList) =
      Json.obj [("diagnosis", Json.str "strain")] := by
  refine ⟨?_, ?_, ?_⟩
  · exact (c3_diagnosis_extraction_cases "plain text".toList).1 (by decide)
  · exact (c3_diagnosis_extraction_cases "\x7b]\x7d".toList).2.1 _ _ rfl rfl
  · exact (c3_diagnosis_extraction_cases "ok \x7b\"diagnosis\":\"strain\"\x7d".toList).2.2
      _ _ rfl rfl

end KaizenPT

namespace KaizenPT

/-! ## Claim C2 — the weekly-schedule key invariant -/

theorem WeeklyKeysInv.set {db : Db} {k : String} {p' : Patient}
    (hInv : WeeklyKeysInv db) (hkeys : p'.weekly_schedule.map Prod.fst = weekDays) :
    WeeklyKeysInv (assocSet k p' db) := by
  intro pr hpr
  rcases mem_assocSet hpr with h1 | h1
  · rw [h1]; exact hkeys
  · exact hInv pr h1

theorem create_weekly_schedule_keys :
    create_weekly_schedule.map Prod.fst = weekDays := rfl

/-- C2, amended.  The seven-weekday key invariant is preserved by
patient creation, questionnaire submission, exercise day-append,
partial update and deletion — every listed operation except
recovery-plan generation, which stores the extracted AI object (or the
`\x7berror, message\x7d` fallback) as the schedule unvalidated. -/
theorem c2_weekly_keys_preserved_amended
    (pc : PatientCreate) (email name day : String) (q : InjuryQuestionnaire)
    (content : List Char) (ex : Json) (pu : PatientUpdate) (db : Db)
    (hInv : WeeklyKeysInv db) :
    WeeklyKeysInv (create_patient pc db).1 ∧
    WeeklyKeysInv (add_injury_questionnaire email q content db).1 ∧
    WeeklyKeysInv (add_exercise_to_day name day ex db).1 ∧
    WeeklyKeysInv (update_patient name pu db).1 ∧
    WeeklyKeysInv (delete_patient name db).1 := by
  refine ⟨?_, ?_, ?_, ?_, ?_⟩
  · cases hg : assocGet pc.name db with
    | some p => simpa [create_patient, hg] using hInv
    | none =>
      simp only [create_patient, hg]
      exact hInv.set create_weekly_schedule_keys
  · cases hg : assocGet email db with
    | some p =>
      simp only [add_injury_questionnaire, hg]
      exact hInv.set (hInv (email, p) (assocGet_mem hg))
    | none =>
      simp only [add_injury_questionnaire, hg, assocGet_assocSet_self]
      exact (hInv.set create_weekly_schedule_keys).set create_weekly_schedule_keys
  · cases hg : assocGet name db with
    | none => simpa [add_exercise_to_day, hg] using hInv
    | some p =>
      cases hd : assocGet day p.weekly_schedule with
      | none => simpa [add_exercise_to_day, hg, hd] using hInv
      | some v =>
        cases v with
        | arr xs =>
          simp only [add_exercise_to_day, hg, hd]
          exact hInv.set (by
            rw [assocSet_map_fst_of_get hd]
            exact hInv (name, p) (assocGet_mem hg))
        | null => simpa [add_exercise_to_day, hg, hd] using hInv
        | bool b => simpa [add_exercise_to_day, hg, hd] using hInv
        | int n => simpa [add_exercise_to_day, hg, hd] using hInv
        | float a b c d e => simpa [add_exercise_to_day, hg, hd] using hInv
        | str s => simpa [add_exercise_to_day, hg, hd] using hInv
        | obj kvs => simpa [add_exercise_to_day, hg, hd] using hInv
  · cases hg : assocGet name db with
    | none => simpa [update_patient, hg] using hInv
    | some p =>
      simp only [update_patient, hg]
      exact hInv.set (hInv (name, p) (assocGet_mem hg))
  · cases hg : assocGet name db with
    | none => simpa [delete_patient, hg] using hInv
    | some p =>
      simp only [delete_patient, hg]
      intro pr hpr
      exact hInv pr (mem_assocDel hpr)

/-- C2, witness: the amended preservation theorem at concrete inputs
over the empty store. -/
theorem c2_weekly_keys_preserved_amended_witness :
    WeeklyKeysInv (create_patient { name := "alice", age := 30 } []).1 ∧
    WeeklyKeysInv (add_injury_questionnaire "a@x.com"
      { body_part := "Knee", hurting_description := "aches" } ("hi".toList) []).1 ∧
    WeeklyKeysInv (add_exercise_to_day "alice" "Monday" (.obj []) []).1 ∧
    WeeklyKeysInv (update_patient "alice" {} []).1 ∧
    WeeklyKeysInv (delete_patient "alice" []).1 :=
  c2_weekly_keys_preserved_amended { name := "alice", age := 30 } "a@x.com" "alice"
    "Monday" { body_part := "Knee", hurting_description := "aches" } ("hi".toList)
    (.obj []) {} [] (by intro pr hpr; exact absurd hpr (List.not_mem_nil pr))

/-- C2, counterexample.  After the reachable sequence questionnaire →
recovery-plan generation (with an unparseable AI reply), the stored
schedule's key list is `["error", "message"]`, not the seven weekdays. -/
theorem c2_weekly_keys_counterexample :
    (assocGet "a@x.com" exDb2).map (fun p => p.weekly_schedule.map Prod.fst) =
      some ["error", "message"] ∧
    (["error", "message"] : List String) ≠ weekDays := by
  exact ⟨rfl, by decide⟩

/-! ## Claim C4 — GET /weekly_schedule for an absent patient -/

/-- C4, counterexample.  The handler does not auto-create: on the empty
store it fails with 404. -/
theorem c4_schedule_absent_404_counterexample :
    get_weekly_schedule "alice" [] = .error ⟨404, "Patient not found"⟩ := rfl

/-- C4, amended.  `get_weekly_schedule` reads the store keyed by the
path parameter: 404 for an absent identifier (no auto-creation, no
write — the handler does not touch the store), the stored schedule for
a present one. -/
theorem c4_get_weekly_schedule_amended (patient_name : String) (db : Db) :
    (assocGet patient_name db = none →
      get_weekly_schedule patient_name db = .error ⟨404, "Patient not found"⟩) ∧
    (∀ p, assocGet patient_name db = some p →
      get_weekly_schedule patient_name db = .ok p.weekly_schedule) := by
  constructor
  · intro h; simp only [get_weekly_schedule, h]
  · intro p h; simp only [get_weekly_schedule, h]

/-- C4, witness. -/
theorem c4_get_weekly_schedule_amended_witness :
    get_weekly_schedule "alice" [] = .error ⟨404, "Patient not found"⟩ ∧
    get_weekly_schedule "bob" [("bob", ⟨[], [], create_weekly_schedule⟩)] =
      .ok create_weekly_schedule :=
  ⟨(c4_get_weekly_schedule_amended "alice" []).1 rfl,
   (c4_get_weekly_schedule_amended "bob" [("bob", ⟨[], [], create_weekly_schedule⟩)]).2
     ⟨[], [], create_weekly_schedule⟩ rfl⟩

/-! ## Claim C5 — bounds-checked injury removal (spec-modelled) -/

/-- C5.  Removal succeeds exactly on indices in `[0, n)`, returns the
entry at the index together with the remainder (one shorter), and any
out-of-range index is a NotFound error — never a silent no-op (the
input list is returned to the caller untouched in the error case). -/
theorem c5_remove_injury_bounds (l : List Json) (i : Int) :
    ((∃ y, removeInjuryAt l i = .ok y) ↔ 0 ≤ i ∧ i < l.length) ∧
    (∀ x rest, removeInjuryAt l i = .ok (x, rest) →
      l[i.toNat]? = some x ∧ rest = l.eraseIdx i.toNat ∧ rest.length + 1 = l.length) ∧
    (¬(0 ≤ i ∧ i < l.length) → removeInjuryAt l i = .error ⟨404, "Injury not found"⟩) := by
  by_cases h : 0 ≤ i ∧ i < l.length
  · have hlt : i.toNat < l.length := by omega
    refine ⟨⟨fun _ => h, fun _ => ⟨(l.get ⟨i.toNat, hlt⟩, l.eraseIdx i.toNat),
      by simp [removeInjuryAt, h]⟩⟩, ?_, fun hc => absurd h hc⟩
    intro x rest hok
    simp only [removeInjuryAt, dif_pos h, Except.ok.injEq, Prod.mk.injEq] at hok
    obtain ⟨hx, hrest⟩ := hok
    refine ⟨?_, hrest.symm, ?_⟩
    · rw [← hx, List.getElem?_eq_getElem hlt]
      simp
    · rw [← hrest, List.length_eraseIdx_of_lt hlt]
      omega
  · refine ⟨⟨?_, fun hc => absurd hc h⟩, ?_, fun _ => by simp [removeInjuryAt, h]⟩
    · rintro ⟨y, hy⟩
      simp [removeInjuryAt, h] at hy
    · intro x rest hok
      simp [removeInjuryAt, h] at hok

/-- C5, witness: both branches at concrete inputs. -/
theorem c5_remove_injury_bounds_witness :
    removeInjuryAt [Json.int 1, Json.int 2] 5 = .error ⟨404, "Injury not found"⟩ ∧
    ([Json.int 1, Json.int 2][(1 : Int).toNat]? = some (Json.int 2) ∧
      [Json.int 1] = [Json.int 1, Json.int 2].eraseIdx (1 : Int).toNat ∧
      [Json.int 1].length + 1 = [Json.int 1, Json.int 2].length) :=
  ⟨(c5_remove_injury_bounds [Json.int 1, Json.int 2] 5).2.2 (by decide),
   (c5_remove_injury_bounds [Json.int 1, Json.int 2] 1).2.1 (Json.int 2) [Json.int 1] rfl⟩

end KaizenPT

namespace KaizenPT

/-! ## Claim C6 — questionnaire auto-creation -/

/-- C6, amended.  A questionnaire for a never-seen e-mail auto-creates
the record (empty schedule template, no prior create call) and leaves
the injury list at length 1; the response is the extracted diagnosis,
which is guaranteed to contain the `diagnosis` / `reasoning` /
`recommendations` keys whenever extraction fell back (no span, or an
unparseable span) — a successfully parsed AI object is returned as-is
and may lack them. -/
theorem c6_questionnaire_autocreate_amended
    (email : String) (q : InjuryQuestionnaire) (content : List Char) (db : Db)
    (habs : assocGet email db = none) :
    (add_injury_questionnaire email q content db).2 = .ok (generate_diagnosis content) ∧
    (∃ p, assocGet email (add_injury_questionnaire email q content db).1 = some p ∧
      p.injuries.length = 1 ∧ p.weekly_schedule = create_weekly_schedule) ∧
    ((jsonMatch content = none ∨ ∃ m e, jsonMatch content = some m ∧ loads m = .error e) →
      "diagnosis" ∈ (objMembers (generate_diagnosis content)).map Prod.fst ∧
      "reasoning" ∈ (objMembers (generate_diagnosis content)).map Prod.fst ∧
      "recommendations" ∈ (objMembers (generate_diagnosis content)).map Prod.fst) := by
  refine ⟨?_, ?_, ?_⟩
  · simp only [add_injury_questionnaire, habs, assocGet_assocSet_self]
  · simp only [add_injury_questionnaire, habs, assocGet_assocSet_self]
    exact ⟨_, rfl, rfl, rfl⟩
  · intro hcase
    rcases hcase with hnone | ⟨m, e, hm, he⟩
    · simp [generate_diagnosis, hnone, diagnosisNoMatchFallback, objMembers]
    · simp [generate_diagnosis, hm, he, diagnosisApiError, objMembers]

/-- C6, witness: the amended theorem at a concrete never-seen e-mail
over the empty store, with a span-free AI reply. -/
theorem c6_questionnaire_autocreate_amended_witness :
    (add_injury_questionnaire "c@x.com" exQuestionnaire ("zzz".toList) []).2 =
      .ok (generate_diagnosis ("zzz".toList)) ∧
    (∃ p, assocGet "c@x.com"
        (add_injury_questionnaire "c@x.com" exQuestionnaire ("zzz".toList) []).1 = some p ∧
      p.injuries.length = 1 ∧ p.weekly_schedule = create_weekly_schedule) ∧
    "diagnosis" ∈ (objMembers (generate_diagnosis ("zzz".toList))).map Prod.fst := by
  have h := c6_questionnaire_autocreate_amended "c@x.com" exQuestionnaire ("zzz".toList) [] rfl
  exact ⟨h.1, h.2.1, (h.2.2 (Or.inl rfl)).1⟩

/-- C6, counterexample.  With an AI reply that parses to a JSON object
without the three keys, the response is that object unchanged, so it
does not contain a `diagnosis` key. -/
theorem c6_response_keys_counterexample :
    (add_injury_questionnaire "b@x.com" exQuestionnaire ("\x7b\"a\":1\x7d".toList) []).2 =
      .ok (Json.obj [("a", Json.int 1)]) ∧
    "diagnosis" ∉ ((objMembers (Json.obj [("a", Json.int 1)])).map Prod.fst) :=
  ⟨rfl, by decide⟩

/-! ## Claim C7 — day-append behaviour -/

/-- C7, amended.  For any stored patient, appending to a day whose
schedule entry is still a list succeeds with length +1, the new entry
last and no other change (other days and other patients untouched);
appending to a key not present in the patient's *current* schedule is a
400 with no mutation.  (After a recovery-plan overwrite a weekday name
may no longer be a schedule key, so a weekday append can be rejected —
see the counterexample.) -/
theorem c7_day_append_amended (name day : String) (ex : Json) (db : Db) (p : Patient)
    (hp : assocGet name db = some p) :
    (∀ xs, assocGet day p.weekly_schedule = some (.arr xs) →
      (add_exercise_to_day name day ex db).2 =
        .ok (.obj [("message", .str ("Exercise added to " ++ day ++ " for " ++ name))]) ∧
      ∃ p', assocGet name (add_exercise_to_day name day ex db).1 = some p' ∧
        assocGet day p'.weekly_schedule = some (.arr (xs ++ [ex])) ∧
        (∀ d, d ≠ day → assocGet d p'.weekly_schedule = assocGet d p.weekly_schedule) ∧
        (∀ n', n' ≠ name →
          assocGet n' (add_exercise_to_day name day ex db).1 = assocGet n' db)) ∧
    (assocGet day p.weekly_schedule = none →
      add_exercise_to_day name day ex db = (db, .error ⟨400, "Invalid day provided"⟩)) := by
  constructor
  · intro xs hd
    constructor
    · simp only [add_exercise_to_day, hp, hd]
    · refine ⟨{ p with
          weekly_schedule := assocSet day (Json.arr (xs ++ [ex])) p.weekly_schedule },
        ?_, ?_, ?_, ?_⟩
      · simp only [add_exercise_to_day, hp, hd]
        exact assocGet_assocSet_self _ _ _
      · exact assocGet_assocSet_self _ _ _
      · intro d hd'
        exact assocGet_assocSet_ne _ hd' _
      · intro n' hn'
        simp only [add_exercise_to_day, hp, hd]
        exact assocGet_assocSet_ne _ hn' _
  · intro hd
    simp only [add_exercise_to_day, hp, hd]

/-- C7, witness: a fresh patient accepts a Monday append and rejects an
unknown day with 400 and no mutation. -/
theorem c7_day_append_amended_witness :
    (add_exercise_to_day "alice" "Monday" (.obj [("name", .str "Squat")]) exDbAlice).2 =
      .ok (.obj [("message", .str ("Exercise added to Monday for alice"))]) ∧
    add_exercise_to_day "alice" "Funday" (.obj []) exDbAlice =
      (exDbAlice, .error ⟨400, "Invalid day provided"⟩) :=
  ⟨((c7_day_append_amended "alice" "Monday" (.obj [("name", .str "Squat")]) exDbAlice
      exAlice rfl).1 [] rfl).1,
   (c7_day_append_amended "alice" "Funday" (.obj []) exDbAlice exAlice rfl).2 rfl⟩

/-- C7, counterexample.  In the reachable store `exDb2` (schedule
overwritten by the recovery-plan fallback), appending to the recognized
weekday "Monday" is rejected with 400 instead of succeeding. -/
theorem c7_weekday_rejected_counterexample :
    "Monday" ∈ weekDays ∧
    (add_exercise_to_day "a@x.com" "Monday" (.obj [("name", .str "Squat")]) exDb2).2 =
      .error ⟨400, "Invalid day provided"⟩ :=
  ⟨by decide, rfl⟩

/-! ## Claim C8 — recovery-plan gate and overwrite -/

/-- C8.  For a stored patient: with an empty injury list the operation
returns 400 and the store (hence the schedule) is unchanged; with at
least one injury it returns the extracted plan and overwrites the
patient's weekly schedule wholesale with that plan object. -/
theorem c8_recovery_plan_gate (email : String) (content : List Char) (db : Db) (p : Patient)
    (hp : assocGet email db = some p) :
    (p.injuries = [] →
      create_recovery_plan email content db =
        (db, .error ⟨400,
          "No injuries found for this patient. Please add injury information first."⟩)) ∧
    (∀ a rest, p.injuries = a :: rest →
      (create_recovery_plan email content db).2 = .ok (generate_recovery_plan content) ∧
      ∃ p', assocGet email (create_recovery_plan email content db).1 = some p' ∧
        p'.weekly_schedule = objMembers (generate_recovery_plan content)) := by
  constructor
  · intro hinj
    simp only [create_recovery_plan, hp, hinj]
  · intro a rest hinj
    simp only [create_recovery_plan, hp, hinj]
    exact ⟨trivial, _, assocGet_assocSet_self _ _ _, rfl⟩

/-- C8, witness: the 400 branch on a zero-injury patient and the
overwrite branch on the reachable one-injury store `exDb1`. -/
theorem c8_recovery_plan_gate_witness :
    create_recovery_plan "alice" ("x".toList) exDbAlice =
      (exDbAlice, .error ⟨400,
        "No injuries found for this patient. Please add injury information first."⟩) ∧
    (create_recovery_plan "a@x.com" ("nope".toList) exDb1).2 =
      .ok (generate_recovery_plan ("nope".toList)) :=
  ⟨(c8_recovery_plan_gate "alice" ("x".toList) exDbAlice exAlice rfl).1 rfl,
   ((c8_recovery_plan_gate "a@x.com" ("nope".toList) exDb1 _ rfl).2 _ _ rfl).1⟩

end KaizenPT

namespace KaizenPT

/-! ## Claim C9 — partiality of the aggregation -/

/-- C9, counterexample.  A store whose only patient has a day key
outside the seven weekdays ("Someday") but mapped to an *empty* list
does not raise: `pt_schedule[day]` is only evaluated inside the
per-exercise loop, which never runs.  The claim's unconditional
KeyError is therefore too strong. -/
theorem c9_empty_foreign_key_counterexample :
    ("Someday" ∉ weekDays) ∧
    generate_pt_weekly_schedule
      [("a", ⟨[], [], create_weekly_schedule ++ [("Someday", Json.arr [])]⟩)] =
      .ok (weekDays.map (fun d => (d, []))) :=
  ⟨by decide, rfl⟩

/-- C9, amended.  The aggregation is partial: whenever a patient's
weekly schedule is the recovery-plan fallback object
`\x7berror, message\x7d` (whose values are nonempty strings, hence nonempty
iterables), it raises `KeyError('error')`; in particular it does so on
the reachable store `exDb2`.  A foreign key mapped to an empty list
does not raise (see the counterexample). -/
theorem c9_aggregation_keyerror_amended :
    (∀ (name : String) (prof : List (String × Json)) (inj : List Json),
      generate_pt_weekly_schedule [(name, ⟨prof, inj, objMembers planNoMatchFallback⟩)] =
        .error (.keyError "error")) ∧
    generate_pt_weekly_schedule exDb2 = .error (.keyError "error") := by
  exact ⟨fun name prof inj => rfl, rfl⟩

/-! ## Claim C10 — two-patient Monday aggregation -/

theorem fmtExercise_named {n nm : String} {kvs : List (String × Json)}
    (h : assocGet "name" kvs = some (.str nm)) :
    fmtExercise n (.obj kvs) = .ok (n ++ ": " ++ nm) := by
  simp only [fmtExercise, h, Option.getD_some]
  rfl

theorem exceptBind_ok {ε α β : Type} (a : α) (f : α → Except ε β) :
    (Except.ok a : Except ε α) >>= f = f a := rfl

theorem ptAddExercises_single {n day : String} {e : Json} {l : String}
    {acc : List (String × List String)} {cur : List String}
    (hget : assocGet day acc = some cur) (hf : fmtExercise n e = .ok l) :
    ptAddExercises n day [e] acc = .ok (assocSet day (cur ++ [l]) acc) := by
  simp only [ptAddExercises, hget, hf]
  rfl

/-- C10.  Over a store of two patients, each holding exactly one
Monday exercise (an object carrying a string `name`) in an otherwise
empty weekday template, the aggregate schedule succeeds and its Monday
list is exactly the two lines `"{identifier}: {exerciseName}"`, in
store order — in particular of length 2. -/
theorem c10_two_patient_monday_aggregate
    (n1 n2 nm1 nm2 : String) (prof1 prof2 : List (String × Json))
    (inj1 inj2 : List Json) (kvs1 kvs2 : List (String × Json))
    (h1 : assocGet "name" kvs1 = some (.str nm1))
    (h2 : assocGet "name" kvs2 = some (.str nm2)) :
    generate_pt_weekly_schedule
      [(n1, ⟨prof1, inj1, assocSet "Monday" (.arr [.obj kvs1]) create_weekly_schedule⟩),
       (n2, ⟨prof2, inj2, assocSet "Monday" (.arr [.obj kvs2]) create_weekly_schedule⟩)] =
      .ok (assocSet "Monday" [n1 ++ ": " ++ nm1, n2 ++ ": " ++ nm2]
        (weekDays.map (fun d => (d, [])))) ∧
    assocGet "Monday" (assocSet "Monday" [n1 ++ ": " ++ nm1, n2 ++ ": " ++ nm2]
        (weekDays.map (fun d => (d, [])))) =
      some [n1 ++ ": " ++ nm1, n2 ++ ": " ++ nm2] ∧
    [n1 ++ ": " ++ nm1, n2 ++ ": " ++ nm2].length = 2 := by
  refine ⟨?_, assocGet_assocSet_self _ _ _, rfl⟩
  have hf1 := fmtExercise_named (n := n1) h1
  have hf2 := fmtExercise_named (n := n2) h2
  simp [generate_pt_weekly_schedule, ptAddPatients, ptAddDays, ptAddExercises,
    iterElems, assocSet, assocGet, create_weekly_schedule, weekDays, hf1, hf2,
    exceptBind_ok]

/-- C10, witness: the aggregation at concrete names and exercises. -/
theorem c10_two_patient_monday_aggregate_witness :
    generate_pt_weekly_schedule
      [("alice", ⟨[], [], assocSet "Monday"
          (.arr [.obj [("name", Json.str "Squat")]]) create_weekly_schedule⟩),
       ("bob", ⟨[], [], assocSet "Monday"
          (.arr [.obj [("name", Json.str "Plank")]]) create_weekly_schedule⟩)] =
      .ok (assocSet "Monday" ["alice: Squat", "bob: Plank"]
        (weekDays.map (fun d => (d, [])))) ∧
    ["alice: Squat", "bob: Plank"].length = 2 := by
  have h := c10_two_patient_monday_aggregate "alice" "bob" "Squat" "Plank" [] [] [] []
    [("name", Json.str "Squat")] [("name", Json.str "Plank")] rfl rfl
  exact ⟨h.1, h.2.2⟩

end KaizenPT
